import Mathlib

/-!
A shallow embedding of `tracing-subscriber/src/fmt/span.rs`: the span storage
slab, its Treiber-style free list, manual reference counting, the thread-local
active-span stack, and the recursive ancestry walk.  The embedding specialises
the code to single-threaded executions: every lock acquisition succeeds, every
compare-and-swap succeeds, and the retry loops therefore resolve
deterministically.  Machine integers (`usize`) are modelled as `Nat` with
explicit wrapping modulo `2 ^ 64` where the source can overflow; fallible or
panicking paths return `Option`.  The externally supplied field renderer
("visitor") is modelled at its interface: it appends caller-chosen text to the
slot buffer.
-/

namespace FmtSpan

/-- Number of values of the machine word type `usize` (64-bit target). -/
def USIZE : Nat := 2 ^ 64

/-- The update performed by `AtomicUsize::fetch_sub(1, _)`: a wrapping
decrement modulo `usize`. -/
def wrapDec (n : Nat) : Nat := (n + (USIZE - 1)) % USIZE

/-- An opaque `&'static Metadata<'static>` reference: process-lifetime
identity, modelled by a token. -/
abbrev Metadata := Nat

/-- `Data`: the contents of an occupied span slot (`struct Data`). -/
structure Data where
  parent : Option Nat
  metadata : Metadata
  ref_count : Nat
  is_empty : Bool
deriving Repr, DecidableEq

/-- `enum State { Full(Data), Empty(usize) }`. -/
inductive State where
  | Full (data : Data)
  | Empty (next : Nat)
deriving Repr, DecidableEq

/-- `struct Slot { fields: String, span: State }`. -/
structure Slot where
  fields : String
  span : State
deriving Repr, DecidableEq

/-- `struct Slab { slab: Vec<RwLock<Slot>> }` (the per-slot locks are
immaterial in the single-threaded semantics). -/
structure Slab where
  slab : List Slot
deriving Repr, DecidableEq

/-- `struct Store { inner: RwLock<Slab>, next: AtomicUsize }`. -/
structure Store where
  inner : Slab
  next : Nat
deriving Repr, DecidableEq

/-- The parent-resolution mode carried by `Attributes`
(`is_root()` / `is_contextual()` / explicit `parent()`). -/
inductive ParentKind where
  | root
  | contextual
  | explicitId (id : Nat)
deriving Repr, DecidableEq

/-- The inputs of span creation: the opaque metadata, the parent-resolution
mode, and the text that the externally supplied visitor renders for the
initial attribute set (`attrs.record(&mut recorder)` where the recorder was
made with `new_visitor.make(buf, true)` and appends into `buf`). -/
structure Attributes where
  metadata : Metadata
  parentKind : ParentKind
  rendered : String
deriving Repr, DecidableEq

/-- A late `Record` of additional fields: the text appended by the externally
supplied visitor may depend on the `is_empty` flag that `Slot::record` passes
to `new_visitor.make(buf, data.is_empty)`. -/
structure Record where
  rendered : Bool → String

/-- `fn idx_to_id(idx: usize) -> Id { Id::from_u64(idx as u64 + 1) }`. -/
def idx_to_id (idx : Nat) : Nat := idx + 1

/-- `fn id_to_idx(id: &Id) -> usize { id.into_u64() as usize - 1 }`. -/
def id_to_idx (id : Nat) : Nat := id - 1

/-- `Slot::new`: render the initial fields into a fresh buffer, clear the
`is_empty` flag if the buffer ended up empty, and store the data. -/
def Slot.new (data : Data) (attrs : Attributes) : Slot :=
  let fields := "" ++ attrs.rendered
  let data := if fields.isEmpty then { data with is_empty := false } else data
  { fields := fields, span := State.Full data }

/-- `Slot::next`: the stored free-list successor of a vacant slot. -/
def Slot.next (s : Slot) : Option Nat :=
  match s.span with
  | State.Empty next => some next
  | State.Full _ => none

/-- `Slot::fill`: render the initial fields into the retained buffer, clear
the `is_empty` flag if the buffer ended up empty, and replace the vacant
state, returning the stored free-list successor.  `none` models the
`unreachable!("tried to fill a full slot")` panic. -/
def Slot.fill (s : Slot) (data : Data) (attrs : Attributes) : Option (Slot × Nat) :=
  let fields := s.fields ++ attrs.rendered
  let data := if fields.isEmpty then { data with is_empty := false } else data
  match s.span with
  | State.Empty next => some ({ fields := fields, span := State.Full data }, next)
  | State.Full _ => none

/-- `Slot::record`: a vacant slot is left untouched; an occupied slot has the
visitor append into its buffer and clears the `is_empty` flag if the buffer
is empty afterwards. -/
def Slot.record (s : Slot) (fields : Record) : Slot :=
  match s.span with
  | State.Empty _ => s
  | State.Full data =>
    let buf := s.fields ++ fields.rendered data.is_empty
    let data := if buf.isEmpty then { data with is_empty := false } else data
    { fields := buf, span := State.Full data }

/-- `Slot::drop_ref`: `ref_count.fetch_sub(1, Release) == 1` on an occupied
slot (returning whether the old count was exactly one, and wrapping the
stored count down), `false` on a vacant slot. -/
def Slot.drop_ref (s : Slot) : Bool × Slot :=
  match s.span with
  | State.Full data =>
    (data.ref_count == 1,
     { s with span := State.Full { data with ref_count := wrapDec data.ref_count } })
  | State.Empty _ => (false, s)

/-- `Slot::clone_ref`: the source performs `ref_count.fetch_sub(1, Release)`
(a wrapping decrement) on an occupied slot; `none` models the
`unreachable!` panic on a vacant slot. -/
def Slot.clone_ref (s : Slot) : Option Slot :=
  match s.span with
  | State.Full data =>
    some { s with span := State.Full { data with ref_count := wrapDec data.ref_count } }
  | State.Empty _ => none

/-- `Slab::remove`: push slot `idx` onto the free list.  Single-threaded, the
snapshot of `next` is never stale, so the loop runs once: an occupied slot is
swapped to `Empty(head)`, the head becomes `idx`, and the buffer is cleared
(capacity retained); an already-vacant slot is restored unchanged and no data
is returned.  The source indexes `self.slab[idx]` directly and is only ever
called with an in-range index; an out-of-range index is modelled as the
unchanged triple. -/
def Slab.remove (sl : Slab) (next : Nat) (idx : Nat) : Slab × Nat × Option Data :=
  match sl.slab.get? idx with
  | none => (sl, next, none)
  | some slot =>
    match slot.span with
    | State.Full data =>
      (⟨sl.slab.set idx { fields := "", span := State.Empty next }⟩, idx, some data)
    | State.Empty _ => (sl, next, none)

/-- `Slab::read_slot` composed with `Store::get`: the bound read view of an
occupied slot, `none` for a vacant or out-of-range slot. -/
def Store.get (s : Store) (id : Nat) : Option Slot :=
  match s.inner.slab.get? (id_to_idx id) with
  | none => none
  | some slot =>
    match slot.span with
    | State.Empty _ => none
    | State.Full _ => some slot

/-- `Span::parent`: the parent identifier of a viewed slot (the vacant case is
`unreachable!` in the source, since views are only handed out for occupied
slots). -/
def Span.parent (span : Slot) : Option Nat :=
  match span.span with
  | State.Full data => data.parent
  | State.Empty _ => none

/-- `Store::clone_span`: read-lock the slot and `clone_ref` it, then return
`id.clone()`.  An out-of-range index only `debug_panic!`s (a release-mode
no-op), but a vacant slot hits `clone_ref`'s `unreachable!`, modelled as
`none`. -/
def Store.clone_span (s : Store) (id : Nat) : Option (Nat × Store) :=
  let idx := id_to_idx id
  match s.inner.slab.get? idx with
  | some slot =>
    match slot.clone_ref with
    | some slot2 => some (id, { s with inner := ⟨s.inner.slab.set idx slot2⟩ })
    | none => none
  | none => some (id, s)

/-- `Store::drop_span`: `drop_ref` the slot (an out-of-range index
`debug_panic!`s, which in release mode yields `false`); when the count hit
zero, fence and `remove` the slot, returning `true`. -/
def Store.drop_span (s : Store) (id : Nat) : Bool × Store :=
  let idx := id_to_idx id
  match s.inner.slab.get? idx with
  | none => (false, s)
  | some slot =>
    let r := slot.drop_ref
    let s2 : Store := { s with inner := ⟨s.inner.slab.set idx r.2⟩ }
    if r.1 then
      let rem := Slab.remove s2.inner s2.next idx
      (true, { inner := rem.1, next := rem.2.1 })
    else
      (false, s2)

/-- `Store::current`: clone the calling thread's top-of-stack span, if any
(the `Vec` top is its last element).  `none` models `clone_ref`'s panic. -/
def Store.current (s : Store) (ctx : List Nat) : Option (Option Nat × Store) :=
  match ctx.getLast? with
  | none => some (none, s)
  | some id =>
    match Store.clone_span s id with
    | some r => some (some r.1, r.2)
    | none => none

/-- `Store::push`: ignore the enter when the identifier is already contained
in the thread's stack, otherwise push `clone_span(id)`. -/
def Store.push (s : Store) (ctx : List Nat) (id : Nat) : Option (Store × List Nat) :=
  if id ∈ ctx then some (s, ctx)
  else
    match Store.clone_span s id with
    | some r => some (r.2, ctx ++ [r.1])
    | none => none

/-- `Store::pop`: pop the stack top only when it equals `expected_id`, and
`drop_span` the popped identifier; otherwise do nothing. -/
def Store.pop (s : Store) (ctx : List Nat) (expected_id : Nat) : Store × List Nat :=
  match ctx.getLast? with
  | none => (s, ctx)
  | some top =>
    if top = expected_id then ((Store.drop_span s top).2, ctx.dropLast)
    else (s, ctx)

/-- `Data::new`: resolve the parent (root → none; contextual → clone of the
thread's current span; explicit → clone of the given parent) and start the
reference count at one with the `is_empty` flag set. -/
def Data.new (attrs : Attributes) (s : Store) (ctx : List Nat) : Option (Data × Store) :=
  let resolved : Option (Option Nat × Store) :=
    match attrs.parentKind with
    | ParentKind.root => some (none, s)
    | ParentKind.contextual => Store.current s ctx
    | ParentKind.explicitId id =>
      match Store.clone_span s id with
      | some r => some (some r.1, r.2)
      | none => none
  match resolved with
  | none => none
  | some pr =>
    some ({ parent := pr.1, metadata := attrs.metadata, ref_count := 1,
            is_empty := true }, pr.2)

/-- `impl Drop for Data`: the parent identifiers whose references the
destructor releases (each through one `try_close` on the dispatcher) —
`self.parent.take()` releases the parent exactly once when present. -/
def Data.dropReleases (d : Data) : List Nat :=
  match d.parent with
  | some p => [p]
  | none => []

/-- `Store::new_span`: build the `Data` first, then pop the free list.
Single-threaded, the loop resolves deterministically: if the head is in
range, the slot there is locked and filled (its stored successor becomes the
new head); otherwise the slab grows by one pre-filled slot and the head
becomes the new length.  `none` models the paths that cannot return
(`Data::new` panicking, or a head in range whose slot is occupied, on which
the single thread would spin forever). -/
def Store.new_span (s : Store) (attrs : Attributes) (ctx : List Nat) :
    Option (Nat × Store) :=
  match Data.new attrs s ctx with
  | none => none
  | some ds =>
    let s1 := ds.2
    let head := s1.next
    if head < s1.inner.slab.length then
      match s1.inner.slab.get? head with
      | none => none
      | some slot =>
        match Slot.fill slot ds.1 attrs with
        | some fr =>
          some (idx_to_id head, { inner := ⟨s1.inner.slab.set head fr.1⟩, next := fr.2 })
        | none => none
    else
      let len := s1.inner.slab.length
      some (idx_to_id len,
            { inner := ⟨s1.inner.slab ++ [Slot.new ds.1 attrs]⟩, next := len + 1 })

/-- `Store::record`: write-lock the slot if it exists and `Slot::record` into
it; an out-of-range identifier is a no-op. -/
def Store.record (s : Store) (id : Nat) (fields : Record) : Store :=
  let idx := id_to_idx id
  match s.inner.slab.get? idx with
  | none => s
  | some slot => { s with inner := ⟨s.inner.slab.set idx (Slot.record slot fields)⟩ }

/-- `Span::with_parent`: recursively visit the parent chain first (skipping a
parent equal to the last identifier visited in this call, and silently
skipping a missing parent, whose `debug_panic!` is a release-mode no-op),
then invoke the callback on the current span.  The callback is modelled as
`f : Nat → Option E` (`some e` = `Err(e)`); the result pairs the list of
identifiers the callback was invoked on, in order, with the short-circuiting
error, if any.  The `fuel` bounds the recursion depth; the source recurses on
the call stack. -/
def withParent {E : Type} (s : Store) (f : Nat → Option E) :
    Nat → Slot → Nat → Option Nat → List Nat × Option E
  | 0, _, _, _ => ([], none)
  | fuel + 1, span, myId, lastId =>
    let pre : List Nat × Option E :=
      match Span.parent span with
      | some parentId =>
        if some parentId ≠ lastId then
          match Store.get s parentId with
          | some parentSpan => withParent s f fuel parentSpan parentId (some myId)
          | none => ([], none)
        else ([], none)
      | none => ([], none)
    match pre.2 with
    | some _ => pre
    | none => (pre.1 ++ [myId], f myId)

/-- `Context::visit_spans`: resolve the calling thread's top-of-stack span
and walk its ancestry root-first with `with_parent`; outside any span (or
when the top-of-stack span is missing, whose `debug_panic!` is a
release-mode no-op) the callback is never invoked. -/
def visit_spans {E : Type} (s : Store) (ctx : List Nat) (f : Nat → Option E)
    (fuel : Nat) : List Nat × Option E :=
  match ctx.getLast? with
  | none => ([], none)
  | some id =>
    match Store.get s id with
    | none => ([], none)
    | some span => withParent s f fuel span id none

/-- `Store::with_capacity`: an empty slab with free-list head `0`. -/
def Store.with_capacity : Store := { inner := ⟨[]⟩, next := 0 }


theorem set_get?_self {α : Type} (l : List α) (i : Nat) (x : α)
    (h : l.get? i = some x) : l.set i x = l := by
  induction l generalizing i with
  | nil => simp at h
  | cons a t ih =>
    cases i with
    | zero =>
      simp only [List.get?] at h
      injection h with h
      simp [h]
    | succ n =>
      simp only [List.get?] at h
      simp [List.set, ih n h]

theorem clone_span_same_id (s : Store) (id : Nat) (id2 : Nat) (s2 : Store)
    (h : Store.clone_span s id = some (id2, s2)) : id2 = id := by
  simp only [Store.clone_span] at h
  split at h
  · split at h
    · obtain ⟨h1, -⟩ := Prod.mk.inj (Option.some.inj h)
      exact h1.symm
    · exact absurd h (by simp)
  · obtain ⟨h1, -⟩ := Prod.mk.inj (Option.some.inj h)
    exact h1.symm

/-- Claim C4: reclamation is idempotent — `Slab::remove` on a slot that is
already `Vacant` restores the slot unchanged, leaves the free-list head and
the slot's field buffer unmodified, and returns no `Data`, so a slot is
never double-freed. -/
theorem remove_vacant_idempotent (sl : Slab) (next idx n : Nat) (slot : Slot)
    (h1 : sl.slab.get? idx = some slot) (h2 : slot.span = State.Empty n) :
    Slab.remove sl next idx = (sl, next, none) := by
  rw [List.get?_eq_getElem?] at h1
  simp [Slab.remove, h1, h2]

/-- Claim C7: `pop(expected_id)` pops the top entry and releases the held
reference (one `drop_span`) when the stack top equals `expected_id`, and
otherwise leaves the stack and every reference count unchanged. -/
theorem pop_matches_top_else_noop (s : Store) (ctx : List Nat) (e : Nat) :
    (ctx.getLast? = some e → Store.pop s ctx e = ((Store.drop_span s e).2, ctx.dropLast)) ∧
    (ctx.getLast? ≠ some e → Store.pop s ctx e = (s, ctx)) := by
  constructor
  · intro h
    simp [Store.pop, h]
  · intro h
    cases hl : ctx.getLast? with
    | none => simp [Store.pop, hl]
    | some top =>
      rw [hl] at h
      have ht : top ≠ e := fun he => h (by rw [he])
      simp [Store.pop, hl, ht]

/-- Claim C8: `record(id, fields)` against an identifier whose slot is
vacant (already reclaimed) or whose index is at or beyond the slab length
does not panic and leaves the whole store — every slot's buffer and state —
unchanged. -/
theorem record_vacant_or_oob_noop (s : Store) (id : Nat) (r : Record) :
    (s.inner.slab.get? (id_to_idx id) = none → Store.record s id r = s) ∧
    (∀ slot n, s.inner.slab.get? (id_to_idx id) = some slot → slot.span = State.Empty n →
      Store.record s id r = s) := by
  constructor
  · intro h
    rw [List.get?_eq_getElem?] at h
    simp [Store.record, h]
  · intro slot n h1 h2
    have hrec : Slot.record slot r = slot := by
      simp [Slot.record, h2]
    have hset := set_get?_self _ _ _ h1
    rw [List.get?_eq_getElem?] at h1
    simp [Store.record, h1, hrec, hset]


/-- A root span's slot as produced by the store: no parent, one reference. -/
def slotRoot : Slot :=
  { fields := "", span := State.Full { parent := none, metadata := 0, ref_count := 1, is_empty := true } }

/-- A span slot whose parent is identifier `1`. -/
def slotMid : Slot :=
  { fields := "", span := State.Full { parent := some 1, metadata := 0, ref_count := 1, is_empty := true } }

/-- A span slot whose parent is identifier `2`. -/
def slotLeaf : Slot :=
  { fields := "", span := State.Full { parent := some 2, metadata := 0, ref_count := 1, is_empty := true } }

/-- A store holding the live chain `1 ← 2 ← 3` with no free slot. -/
def chainStore : Store := { inner := ⟨[slotRoot, slotMid, slotLeaf]⟩, next := 3 }

/-- Claim C6 (amended): `push(id)` does nothing (stack and reference counts
unchanged) when `id` already occurs anywhere in the thread's stack — in
particular when it equals the top — and otherwise clones one reference to
`id` and pushes the returned identifier (equal to `id`), increasing the
stack depth by one. -/
theorem push_contained_noop_else_clones (s : Store) (ctx : List Nat) (id : Nat) :
    (id ∈ ctx → Store.push s ctx id = some (s, ctx)) ∧
    (id ∉ ctx → ∀ id2 s2, Store.clone_span s id = some (id2, s2) →
      Store.push s ctx id = some (s2, ctx ++ [id2]) ∧
      (ctx ++ [id2]).length = ctx.length + 1 ∧ id2 = id) := by
  constructor
  · intro h
    simp [Store.push, h]
  · intro h id2 s2 hc
    refine ⟨?_, by simp, clone_span_same_id s id id2 s2 hc⟩
    simp [Store.push, h, hc]

/-- Claim C6 counterexample: with stack `[1, 2]` (top `2`), `push 1` has
`id` different from the top, yet it does nothing — the stack stays `[1, 2]`
instead of growing to depth three as the claim's "otherwise" branch
requires, because the source tests `current.contains(id)`, not the top. -/
theorem push_inner_duplicate_counterexample :
    ([1, 2] : List Nat).getLast? = some 2 ∧ (1 : Nat) ≠ 2 ∧
    Store.push chainStore [1, 2] 1 = some (chainStore, [1, 2]) ∧
    ([1, 2] : List Nat).length = 2 := by
  refine ⟨rfl, by decide, ?_, rfl⟩
  rfl

/-- Observer: the `is_empty` flag of an occupied slot. -/
def isEmptyFlag (s : Slot) : Option Bool :=
  match s.span with
  | State.Full data => some data.is_empty
  | State.Empty _ => none

/-- Claim C10 (amended): immediately after `Slot::new` or `Slot::fill` with
a `Data` fresh from `Data::new` (`is_empty` starting `true`), the `is_empty`
flag is `false` exactly when the rendered buffer is empty — i.e. it equals
"the buffer is non-empty", the inverse of its name.  After `Slot::record` on
an occupied slot the flag is `false` iff the buffer is empty afterwards or
the flag was already `false`: record can only clear the flag, never set
it. -/
theorem is_empty_flag_semantics :
    (∀ d a, d.is_empty = true →
      isEmptyFlag (Slot.new d a) = some (!(Slot.new d a).fields.isEmpty)) ∧
    (∀ s d a s2 n, d.is_empty = true → Slot.fill s d a = some (s2, n) →
      isEmptyFlag s2 = some (!s2.fields.isEmpty)) ∧
    (∀ s d r, s.span = State.Full d →
      isEmptyFlag (Slot.record s r) =
        some (d.is_empty && !(Slot.record s r).fields.isEmpty)) := by
  refine ⟨?_, ?_, ?_⟩
  · intro d a h
    by_cases he : a.rendered.isEmpty
    · simp [Slot.new, isEmptyFlag, he]
    · simp [Slot.new, isEmptyFlag, he, h]
  · intro s d a s2 n h hf
    simp only [Slot.fill] at hf
    split at hf
    · obtain ⟨h1, -⟩ := Prod.mk.inj (Option.some.inj hf)
      subst h1
      by_cases he : (s.fields ++ a.rendered).isEmpty
      · simp [isEmptyFlag, he]
      · simp [isEmptyFlag, he, h]
    · exact absurd hf (by simp)
  · intro s d r h
    by_cases he : (s.fields ++ r.rendered d.is_empty).isEmpty
    · simp [Slot.record, isEmptyFlag, h, he]
    · simp [Slot.record, isEmptyFlag, h, he]

/-- Witness for claim C10's amended theorem at a concrete slot. -/
theorem is_empty_flag_semantics_witness :
    isEmptyFlag (Slot.new { parent := none, metadata := 0, ref_count := 1, is_empty := true }
      { metadata := 0, parentKind := ParentKind.root, rendered := "k=v" }) = some true := by
  have h := is_empty_flag_semantics.1
    { parent := none, metadata := 0, ref_count := 1, is_empty := true }
    { metadata := 0, parentKind := ParentKind.root, rendered := "k=v" } rfl
  simpa using h

/-- Claim C10 counterexample: create a slot with an empty initial rendering
(flag becomes `false`, buffer empty), then `Slot::record` an update whose
visitor appends `"x"`: the buffer is now non-empty yet the flag stays
`false`, refuting "after `Slot::record` the flag is false exactly when the
buffer is empty". -/
theorem record_flag_counterexample :
    Data.new { metadata := 0, parentKind := ParentKind.root, rendered := "" }
        Store.with_capacity [] =
      some ({ parent := none, metadata := 0, ref_count := 1, is_empty := true },
            Store.with_capacity) ∧
    (Slot.record
        (Slot.new { parent := none, metadata := 0, ref_count := 1, is_empty := true }
          { metadata := 0, parentKind := ParentKind.root, rendered := "" })
        ⟨fun _ => "x"⟩).fields = "x" ∧
    isEmptyFlag (Slot.record
        (Slot.new { parent := none, metadata := 0, ref_count := 1, is_empty := true }
          { metadata := 0, parentKind := ParentKind.root, rendered := "" })
        ⟨fun _ => "x"⟩) = some false ∧
    ("x" : String) ≠ "" := by
  refine ⟨rfl, rfl, rfl, by decide⟩


theorem remove_length (sl : Slab) (next idx : Nat) :
    (Slab.remove sl next idx).1.slab.length = sl.slab.length := by
  unfold Slab.remove
  split
  · rfl
  · split
    · simp
    · rfl

theorem clone_span_length (s : Store) (id id2 : Nat) (s2 : Store)
    (h : Store.clone_span s id = some (id2, s2)) :
    s2.inner.slab.length = s.inner.slab.length := by
  simp only [Store.clone_span] at h
  split at h
  · split at h
    · obtain ⟨-, h2⟩ := Prod.mk.inj (Option.some.inj h)
      subst h2
      simp
    · exact absurd h (by simp)
  · obtain ⟨-, h2⟩ := Prod.mk.inj (Option.some.inj h)
    subst h2
    rfl

theorem drop_span_length (s : Store) (id : Nat) :
    ((Store.drop_span s id).2).inner.slab.length = s.inner.slab.length := by
  simp only [Store.drop_span]
  split
  · rfl
  · split
    · simpa using remove_length ⟨s.inner.slab.set (id_to_idx id) _⟩ s.next (id_to_idx id)
    · simp

theorem record_length (s : Store) (id : Nat) (r : Record) :
    (Store.record s id r).inner.slab.length = s.inner.slab.length := by
  simp only [Store.record]
  split
  · rfl
  · simp

theorem data_new_length (a : Attributes) (s : Store) (ctx : List Nat)
    (d : Data) (s2 : Store) (h : Data.new a s ctx = some (d, s2)) :
    s2.inner.slab.length = s.inner.slab.length := by
  simp only [Data.new] at h
  split at h
  · exact absurd h (by simp)
  · next pr hpr =>
    obtain ⟨-, h2⟩ := Prod.mk.inj (Option.some.inj h)
    subst h2
    revert hpr
    split
    · intro hpr
      cases hpr
      rfl
    · unfold Store.current
      split
      · intro hpr
        cases hpr
        rfl
      · split
        · next r hr =>
          intro hpr
          cases hpr
          exact clone_span_length _ _ _ _ hr
        · intro hpr
          cases hpr
    · split
      · next r hr =>
        intro hpr
        cases hpr
        exact clone_span_length _ _ _ _ hr
      · intro hpr
        cases hpr

theorem new_span_length (s : Store) (a : Attributes) (ctx : List Nat)
    (id : Nat) (s2 : Store) (h : Store.new_span s a ctx = some (id, s2)) :
    s2.inner.slab.length = s.inner.slab.length ∨
    s2.inner.slab.length = s.inner.slab.length + 1 := by
  simp only [Store.new_span] at h
  split at h
  · exact absurd h (by simp)
  · next ds hds =>
    have hlen := data_new_length a s ctx ds.1 ds.2 (by rw [hds])
    split at h
    · split at h
      · exact absurd h (by simp)
      · split at h
        · obtain ⟨-, h2⟩ := Prod.mk.inj (Option.some.inj h)
          subst h2
          left
          simpa using hlen
        · exact absurd h (by simp)
    · obtain ⟨-, h2⟩ := Prod.mk.inj (Option.some.inj h)
      subst h2
      right
      simpa using hlen

/-- Claim C9: the slab's length is non-decreasing across every operation —
`clone_span`, `drop_span`, `record`, `push`, `pop` and `Slab::remove`
preserve it exactly (reclamation only flips a slot's state to vacant), and
`new_span` either preserves it (slot reuse) or appends exactly one slot
(grow path). -/
theorem slab_length_monotone :
    (∀ s id id2 s2, Store.clone_span s id = some (id2, s2) →
      s2.inner.slab.length = s.inner.slab.length) ∧
    (∀ s id, ((Store.drop_span s id).2).inner.slab.length = s.inner.slab.length) ∧
    (∀ s id r, (Store.record s id r).inner.slab.length = s.inner.slab.length) ∧
    (∀ s ctx id s2 ctx2, Store.push s ctx id = some (s2, ctx2) →
      s2.inner.slab.length = s.inner.slab.length) ∧
    (∀ s ctx e, ((Store.pop s ctx e).1).inner.slab.length = s.inner.slab.length) ∧
    (∀ sl next idx, (Slab.remove sl next idx).1.slab.length = sl.slab.length) ∧
    (∀ s a ctx id s2, Store.new_span s a ctx = some (id, s2) →
      s2.inner.slab.length = s.inner.slab.length ∨
      s2.inner.slab.length = s.inner.slab.length + 1) := by
  refine ⟨clone_span_length, drop_span_length, record_length, ?_, ?_, remove_length,
    new_span_length⟩
  · intro s ctx id s2 ctx2 h
    simp only [Store.push] at h
    split at h
    · obtain ⟨h1, -⟩ := Prod.mk.inj (Option.some.inj h)
      subst h1
      rfl
    · split at h
      · next r hr =>
        obtain ⟨h1, -⟩ := Prod.mk.inj (Option.some.inj h)
        subst h1
        exact clone_span_length _ _ _ _ hr
      · exact absurd h (by simp)
  · intro s ctx e
    unfold Store.pop
    split
    · rfl
    · split
      · exact drop_span_length s _
      · rfl


/-- The slot produced by a root-mode `new_span` holds a fresh `Data` with
reference count one. -/
theorem new_span_root_shape (s : Store) (a : Attributes)
    (ha : a.parentKind = ParentKind.root) (id : Nat) (s1 : Store)
    (h : Store.new_span s a [] = some (id, s1)) :
    ∃ idx flds d, id = idx_to_id idx ∧ idx < s1.inner.slab.length ∧
      s1.inner.slab.get? idx = some { fields := flds, span := State.Full d } ∧
      d.ref_count = 1 := by
  simp only [Store.new_span, Data.new, ha] at h
  by_cases hlt : s.next < s.inner.slab.length
  · rw [if_pos hlt] at h
    cases hslot : s.inner.slab.get? s.next with
    | none => rw [hslot] at h; exact absurd h (by simp)
    | some slot =>
      rw [hslot] at h
      cases hsp : slot.span with
      | Full d0 =>
        simp only [Slot.fill, hsp] at h
        exact absurd h (by simp)
      | Empty nxt =>
        simp only [Slot.fill, hsp] at h
        obtain ⟨h1, h2⟩ := Prod.mk.inj (Option.some.inj h)
        subst h1 h2
        refine ⟨s.next, slot.fields ++ a.rendered,
          if (slot.fields ++ a.rendered).isEmpty then
            { parent := none, metadata := a.metadata, ref_count := 1, is_empty := false }
          else { parent := none, metadata := a.metadata, ref_count := 1, is_empty := true },
          rfl, by simpa using hlt, ?_, by split <;> rfl⟩
        rw [List.get?_eq_getElem?, List.getElem?_set_self']
        rw [List.get?_eq_getElem?] at hslot
        rw [hslot]
        rfl
  · rw [if_neg hlt] at h
    obtain ⟨h1, h2⟩ := Prod.mk.inj (Option.some.inj h)
    subst h1 h2
    refine ⟨s.inner.slab.length, "" ++ a.rendered,
      if ("" ++ a.rendered).isEmpty then
        { parent := none, metadata := a.metadata, ref_count := 1, is_empty := false }
      else { parent := none, metadata := a.metadata, ref_count := 1, is_empty := true },
      rfl, by simp, ?_, by split <;> rfl⟩
    rw [List.get?_eq_getElem?]
    show (s.inner.slab ++ [Slot.new _ a])[s.inner.slab.length]? = _
    rw [List.getElem?_concat_length]
    rfl


theorem drop_after_new_shape (s1 : Store) (idx : Nat) (flds : String) (d : Data)
    (hget : s1.inner.slab.get? idx = some { fields := flds, span := State.Full d })
    (hrc : d.ref_count = 1) :
    Store.drop_span s1 (idx_to_id idx) =
      (true, { inner := ⟨s1.inner.slab.set idx { fields := "", span := State.Empty s1.next }⟩,
               next := idx }) := by
  have hidx : id_to_idx (idx_to_id idx) = idx := rfl
  have hb : (d.ref_count == 1) = true := by rw [hrc]; rfl
  rw [List.get?_eq_getElem?] at hget
  simp only [Store.drop_span, hidx, hget, Slot.drop_ref, hb, if_true]
  simp only [Slab.remove, List.get?_eq_getElem?, List.getElem?_set_self', hget,
    Option.map_some]
  simp [List.set_set, hrc]

/-- Claim C3: single-threaded, after creating span A via `new_span` and
dropping its reference count to zero (one `drop_span`, which reclaims the
slot), the next `new_span` reuses the freed slot before growing the slab:
the new identifier equals A's identifier and the slab length is
unchanged. -/
theorem new_span_reuses_reclaimed_slot (s : Store) (a1 a2 : Attributes)
    (h1 : a1.parentKind = ParentKind.root) (h2 : a2.parentKind = ParentKind.root)
    (idA : Nat) (s1 : Store) (h : Store.new_span s a1 [] = some (idA, s1)) :
    (Store.drop_span s1 idA).1 = true ∧
    ∃ s3, Store.new_span (Store.drop_span s1 idA).2 a2 [] = some (idA, s3) ∧
      s3.inner.slab.length = ((Store.drop_span s1 idA).2).inner.slab.length := by
  obtain ⟨idx, flds, d, hid, hlt, hget, hrc⟩ := new_span_root_shape s a1 h1 idA s1 h
  subst hid
  rw [drop_after_new_shape s1 idx flds d hget hrc]
  refine ⟨rfl, ?_⟩
  have hlen : idx <
      (s1.inner.slab.set idx { fields := "", span := State.Empty s1.next }).length := by
    simpa using hlt
  have hg2 : (s1.inner.slab.set idx
        { fields := "", span := State.Empty s1.next }).get? idx =
      some { fields := "", span := State.Empty s1.next } := by
    rw [List.get?_eq_getElem?, List.getElem?_set_self']
    rw [List.get?_eq_getElem?] at hget
    rw [hget]
    rfl
  refine ⟨Store.mk (Slab.mk ((s1.inner.slab.set idx (Slot.mk "" (State.Empty s1.next))).set idx (Slot.mk ("" ++ a2.rendered) (State.Full (if ("" ++ a2.rendered).isEmpty then Data.mk none a2.metadata 1 false else Data.mk none a2.metadata 1 true))))) s1.next, ?_, ?_⟩
  · simp only [Store.new_span, Data.new, h2]
    rw [if_pos hlen, hg2]
    simp only [Slot.fill]
  · simp


/-- Claim C5: for a chain of live spans `r` (no parent), `a` (parent `r`),
`b` (parent `a`) with `b` the thread's top-of-stack span, `visit_spans`
invokes the callback exactly once per span in root-to-leaf order
(`r`, `a`, `b`), short-circuits on the first error without invoking the
callback on any later span, and invokes the callback zero times when the
thread's stack is empty. -/
theorem visit_spans_root_to_leaf {E : Type} (s : Store) (r a b : Nat)
    (sr sa sb : Slot) (f : Nat → Option E) (ctx : List Nat) (fuel : Nat)
    (hr : Store.get s r = some sr) (hpr : Span.parent sr = none)
    (ha : Store.get s a = some sa) (hpa : Span.parent sa = some r)
    (hb : Store.get s b = some sb) (hpb : Span.parent sb = some a)
    (hrb : r ≠ b) (hctx : ctx.getLast? = some b) :
    visit_spans s ctx f (fuel + 3) =
      (match f r with
       | some e => ([r], some e)
       | none =>
         match f a with
         | some e => ([r, a], some e)
         | none => ([r, a, b], f b)) ∧
    visit_spans s ([] : List Nat) f (fuel + 3) = ([], none) := by
  constructor
  · simp only [visit_spans, hctx, hb]
    simp only [withParent, hpb, hpa, hpr, ha, hr]
    have hab : (some a ≠ (none : Option Nat)) := by simp
    have hrb2 : some r ≠ some b := by simpa using hrb
    simp only [if_pos hab, if_pos hrb2]
    cases hfr : f r with
    | some e => simp
    | none =>
      cases hfa : f a with
      | some e => simp
      | none => simp
  · simp [visit_spans]


/-- Observer: the reference count stored for a live identifier. -/
def refCountAt (s : Store) (id : Nat) : Option Nat :=
  match Store.get s id with
  | none => none
  | some slot =>
    match slot.span with
    | State.Full data => some data.ref_count
    | State.Empty _ => none

/-- The attribute set of a root span whose visitor renders `"x"`. -/
def attrsX : Attributes := { metadata := 0, parentKind := ParentKind.root, rendered := "x" }

/-- The store after `new_span` of `attrsX` on an empty store: one occupied
slot with one reference. -/
def storeX1 : Store :=
  { inner := ⟨[⟨"x", State.Full ⟨none, 0, 1, true⟩⟩]⟩, next := 1 }

/-- `storeX1` after `clone_span 1`: the reference count went down to zero. -/
def storeX0 : Store :=
  { inner := ⟨[⟨"x", State.Full ⟨none, 0, 0, true⟩⟩]⟩, next := 1 }

/-- Claim C1 evaluated at its failing input: `new_span` creates identifier
`1` with reference count one; `clone_span` (whose `Slot::clone_ref` performs
`fetch_sub`) *decrements* the count to zero instead of incrementing it; the
first `drop_span` then sees an old count of zero, returns `false` and wraps
the count to `2 ^ 64 - 1`; the second `drop_span` also returns `false`, and
after one-plus-one-clone drops `get` still returns a present view — the slot
is never reclaimed, contradicting the claim. -/
theorem clone_then_two_drops_leaves_span_live :
    Store.new_span Store.with_capacity attrsX [] = some (1, storeX1) ∧
    Store.clone_span storeX1 1 = some (1, storeX0) ∧
    (Store.drop_span storeX0 1).1 = false ∧
    (Store.drop_span (Store.drop_span storeX0 1).2 1).1 = false ∧
    (Store.get (Store.drop_span (Store.drop_span storeX0 1).2 1).2 1).isSome = true := by
  refine ⟨rfl, rfl, rfl, rfl, rfl⟩

/-- A store holding one live parent span (identifier `1`, one reference). -/
def parentStore : Store := { inner := ⟨[slotRoot]⟩, next := 1 }

/-- The attribute set of a child holding parent `1` explicitly. -/
def attrsChild : Attributes :=
  { metadata := 1, parentKind := ParentKind.explicitId 1, rendered := "" }

/-- The attribute set of a contextually parented child. -/
def attrsCtxChild : Attributes :=
  { metadata := 1, parentKind := ParentKind.contextual, rendered := "" }

/-- Claim C2 evaluated at its failing input: with a live parent (identifier
`1`, reference count one), `Data::new` with an explicit parent — and
likewise with contextual resolution of the thread's current span — stores
`parent = some 1` but *decrements* the parent's reference count from one to
zero instead of increasing it by one, because `clone_span` performs
`fetch_sub`.  The destruction half of the claim does hold: the `Drop` impl
releases the parent reference exactly once (`dropReleases = [1]`). -/
theorem data_new_decrements_parent_refcount :
    refCountAt parentStore 1 = some 1 ∧
    (∃ d s2, Data.new attrsChild parentStore [] = some (d, s2) ∧
      d.parent = some 1 ∧ d.ref_count = 1 ∧
      refCountAt s2 1 = some 0 ∧ Data.dropReleases d = [1]) ∧
    (∃ d s2, Data.new attrsCtxChild parentStore [1] = some (d, s2) ∧
      d.parent = some 1 ∧ refCountAt s2 1 = some 0 ∧ Data.dropReleases d = [1]) := by
  refine ⟨rfl, ⟨_, _, rfl, rfl, rfl, rfl, rfl⟩, ⟨_, _, rfl, rfl, rfl, rfl⟩⟩


/-- A slab holding a single vacant slot pointing at free-list successor `5`. -/
def vacantSlab : Slab := ⟨[⟨"", State.Empty 5⟩]⟩

/-- C4 witness -/
theorem remove_vacant_idempotent_witness :
    Slab.remove vacantSlab 7 0 = (vacantSlab, 7, none) :=
  remove_vacant_idempotent vacantSlab 7 0 5 ⟨"", State.Empty 5⟩ rfl rfl

/-- C7 witness -/
theorem pop_matches_top_else_noop_witness :
    Store.pop chainStore [1, 2] 2 = ((Store.drop_span chainStore 2).2, [1]) ∧
    Store.pop chainStore [1, 2] 1 = (chainStore, [1, 2]) :=
  ⟨(pop_matches_top_else_noop chainStore [1, 2] 2).1 rfl,
   (pop_matches_top_else_noop chainStore [1, 2] 1).2 (by decide)⟩

/-- A store holding a single vacant (already reclaimed) slot with a retained
buffer. -/
def vacantStore : Store := { inner := ⟨[⟨"buf", State.Empty 3⟩]⟩, next := 0 }

/-- A late record whose visitor appends `"y"`. -/
def recY : Record := ⟨fun _ => "y"⟩

/-- C8 witness -/
theorem record_vacant_or_oob_noop_witness :
    Store.record vacantStore 1 recY = vacantStore ∧
    Store.record vacantStore 5 recY = vacantStore :=
  ⟨(record_vacant_or_oob_noop vacantStore 1 recY).2 ⟨"buf", State.Empty 3⟩ 3 rfl rfl,
   (record_vacant_or_oob_noop vacantStore 5 recY).1 rfl⟩

/-- `chainStore` after `clone_span 2`: the middle span's count went to zero. -/
def chainMid0 : Store :=
  { inner := ⟨[slotRoot, ⟨"", State.Full ⟨some 1, 0, 0, true⟩⟩, slotLeaf]⟩, next := 3 }

/-- C6 witness -/
theorem push_contained_noop_else_clones_witness :
    Store.push chainStore [1, 2] 1 = some (chainStore, [1, 2]) ∧
    Store.push chainStore [1] 2 = some (chainMid0, [1, 2]) :=
  ⟨(push_contained_noop_else_clones chainStore [1, 2] 1).1 (by decide),
   ((push_contained_noop_else_clones chainStore [1] 2).2 (by decide) 2 chainMid0 rfl).1⟩

/-- C9 witness -/
theorem slab_length_monotone_witness :
    chainMid0.inner.slab.length = chainStore.inner.slab.length ∧
    chainMid0.inner.slab.length = chainStore.inner.slab.length ∧
    (storeX1.inner.slab.length = Store.with_capacity.inner.slab.length ∨
     storeX1.inner.slab.length = Store.with_capacity.inner.slab.length + 1) :=
  ⟨slab_length_monotone.1 chainStore 2 2 chainMid0 rfl,
   slab_length_monotone.2.2.2.1 chainStore [1] 2 chainMid0 [1, 2] rfl,
   slab_length_monotone.2.2.2.2.2.2 Store.with_capacity attrsX [] 1 storeX1 rfl⟩

/-- C3 witness -/
theorem new_span_reuses_reclaimed_slot_witness :
    (Store.drop_span storeX1 1).1 = true ∧
    ∃ s3, Store.new_span (Store.drop_span storeX1 1).2 attrsX [] = some (1, s3) ∧
      s3.inner.slab.length = ((Store.drop_span storeX1 1).2).inner.slab.length :=
  new_span_reuses_reclaimed_slot Store.with_capacity attrsX attrsX rfl rfl 1 storeX1 rfl

/-- C5 witness -/
theorem visit_spans_root_to_leaf_witness :
    visit_spans chainStore [1, 2, 3] (fun _ => (none : Option Unit)) 3 = ([1, 2, 3], none) ∧
    visit_spans chainStore ([] : List Nat) (fun _ => (none : Option Unit)) 3 = ([], none) := by
  have h := visit_spans_root_to_leaf chainStore 1 2 3 slotRoot slotMid slotLeaf
    (fun _ => (none : Option Unit)) [1, 2, 3] 0 rfl rfl rfl rfl rfl rfl (by decide) rfl
  exact ⟨h.1, h.2⟩

end FmtSpan
